import Mathlib

/-!
Verification of the sen0177 frame synchronization and decoding core.

We shallowly embed the Rust sources:
  * src/read.rs   : `parse_data`, `as_u16`, the magic/payload constants;
  * src/serial.rs : the stream synchronizer `find_byte` and the serial
    `read()` loop;
  * src/i2c.rs    : the block-transport `read()`.

Bytes are modelled as `Nat` together with the well-formedness predicate
`b < 256` (a Rust `u8` is exactly a natural below 256).  A byte stream is a
`List Nat`; reading past the end of the list models a transport-level
failure of the underlying `read` call and is mapped to `TransportError`
(the opaque wrapped transport error; its payload is irrelevant here).

The `u16` additions in the checksum fold of `parse_data` are modelled by
`Nat` addition.  This is faithful because every intermediate value of the
fold is at most 30 * 255 = 7650 < 65536, so the 16-bit addition never
overflows; this bound is itself proved below (`parse_data_total_no_overflow`).

The six PM fields of a `Reading` are `f32` in the source, obtained by the
Rust cast `as f32` from a `u16`.  That conversion is exact and injective for
every value below 2^24 (an IEEE-754 single has a 24-bit significand), and a
`u16` is below 2^16 < 2^24, so we model those fields by the underlying
16-bit natural number; theorems additionally record the `< 65536` bound
that places each value in the exactly-representable range.
-/

namespace Sen0177

/-- The closed error set of the crate (`SensorError<E>` in the source).
`TransportError` stands for the variant wrapping the opaque transport
error `E`; its payload plays no role in the properties below. -/
inductive SensorError where
  | InvalidData (msg : String)
  | ChecksumMismatch
  | BadMagic
  | TransportError
deriving DecidableEq

/-- The twelve-field reading of src/read.rs.  The first six fields are
`f32` in the source; each holds the exact image of a `u16`, which we model
by that `u16` value (see the file comment). -/
structure Reading where
  pm1 : Nat
  pm2_5 : Nat
  pm10 : Nat
  env_pm1 : Nat
  env_pm2_5 : Nat
  env_pm10 : Nat
  particles_0_3 : Nat
  particles_0_5 : Nat
  particles_1 : Nat
  particles_2_5 : Nat
  particles_5 : Nat
  particles_10 : Nat
deriving DecidableEq

/-- `MAGIC_BYTE_0` from src/read.rs. -/
def MAGIC_BYTE_0 : Nat := 0x42

/-- `MAGIC_BYTE_1` from src/read.rs. -/
def MAGIC_BYTE_1 : Nat := 0x4d

/-- `PAYLOAD_LEN` from src/read.rs. -/
def PAYLOAD_LEN : Nat := 32

/-- `as_u16` from src/read.rs: `((hi as u16) << 8) | (lo as u16)`. -/
def as_u16 (hi lo : Nat) : Nat := (hi <<< 8) ||| lo

/-- Byte `i` of a buffer (Rust `buf[i]` on a `[u8; 32]`; out-of-range
indices never occur for well-formed 32-byte buffers). -/
def byteAt (buf : List Nat) (i : Nat) : Nat := buf.getD i 0

/-- The checksum fold of `parse_data`:
`buf[0..PAYLOAD_LEN-2].iter().fold(0u16, |accum, next| accum + *next as u16)`. -/
def chksum (buf : List Nat) : Nat :=
  (buf.take (PAYLOAD_LEN - 2)).foldl (fun accum next => accum + next) 0

/-- The stored trailer of `parse_data`:
`((buf[PAYLOAD_LEN-2] as u16) << 8) | (buf[PAYLOAD_LEN-1] as u16)`. -/
def expected_sum (buf : List Nat) : Nat :=
  (byteAt buf (PAYLOAD_LEN - 2) <<< 8) ||| byteAt buf (PAYLOAD_LEN - 1)

/-- `parse_data` from src/read.rs. -/
def parse_data (buf : List Nat) : Except SensorError Reading :=
  if expected_sum buf = chksum buf then
    Except.ok
      { pm1 := as_u16 (byteAt buf 4) (byteAt buf 5)
        pm2_5 := as_u16 (byteAt buf 6) (byteAt buf 7)
        pm10 := as_u16 (byteAt buf 8) (byteAt buf 9)
        env_pm1 := as_u16 (byteAt buf 10) (byteAt buf 11)
        env_pm2_5 := as_u16 (byteAt buf 12) (byteAt buf 13)
        env_pm10 := as_u16 (byteAt buf 14) (byteAt buf 15)
        particles_0_3 := as_u16 (byteAt buf 16) (byteAt buf 17)
        particles_0_5 := as_u16 (byteAt buf 18) (byteAt buf 19)
        particles_1 := as_u16 (byteAt buf 20) (byteAt buf 21)
        particles_2_5 := as_u16 (byteAt buf 22) (byteAt buf 23)
        particles_5 := as_u16 (byteAt buf 24) (byteAt buf 25)
        particles_10 := as_u16 (byteAt buf 26) (byteAt buf 27) }
  else
    Except.error SensorError.ChecksumMismatch

/-- A buffer is made of bytes. -/
abbrev WFBytes (buf : List Nat) : Prop := ∀ b ∈ buf, b < 256

/-- The frame invariant: the trailer equals the mod-65536 sum of bytes
0 through 29. -/
abbrev ChecksumValid (buf : List Nat) : Prop :=
  expected_sum buf = chksum buf % 65536

/-- The inner scan loop of `Sen0177::find_byte` (src/serial.rs):
`while byte_read != byte && attempts_left > 0 { byte_read = read()?; attempts_left -= 1 }`,
returning `byte_read == byte` and the advanced stream.  The fuel argument
is `attempts_left`; `byte_read` starts at 0 in `find_byte`. -/
def findByteLoop (byte : Nat) : Nat → Nat → List Nat → Except SensorError (Bool × List Nat)
  | 0, byte_read, stream => Except.ok (byte_read == byte, stream)
  | attempts_left + 1, byte_read, stream =>
    if byte_read == byte then Except.ok (true, stream)
    else
      match stream with
      | [] => Except.error SensorError.TransportError
      | b :: rest => findByteLoop byte attempts_left b rest

/-- `Sen0177::find_byte` from src/serial.rs. -/
def find_byte (byte : Nat) (attempts : Nat) (stream : List Nat) :
    Except SensorError (Bool × List Nat) :=
  findByteLoop byte attempts 0 stream

/-- The outer synchronization loop of the serial `read()` (src/serial.rs):
`while byte_read != MAGIC_BYTE_1 && attempts_left > 0 && self.find_byte(MAGIC_BYTE_0, PAYLOAD_LEN as u32 * 4)? { byte_read = read()?; attempts_left -= 1 }`,
returning the final `byte_read` and the advanced stream.  The fuel
argument is `attempts_left`. -/
def readLoop : Nat → Nat → List Nat → Except SensorError (Nat × List Nat)
  | 0, byte_read, stream => Except.ok (byte_read, stream)
  | attempts_left + 1, byte_read, stream =>
    if byte_read == MAGIC_BYTE_1 then Except.ok (byte_read, stream)
    else
      match find_byte MAGIC_BYTE_0 (PAYLOAD_LEN * 4) stream with
      | Except.error e => Except.error e
      | Except.ok (found, rest) =>
        if found then
          match rest with
          | [] => Except.error SensorError.TransportError
          | b :: rest2 => readLoop attempts_left b rest2
        else Except.ok (byte_read, rest)

/-- Reading `n` bytes one by one (`for buf_slot in buf[2..PAYLOAD_LEN].iter_mut() { *buf_slot = read()? }`),
returning the bytes read and the advanced stream. -/
def readBytes : Nat → List Nat → Except SensorError (List Nat × List Nat)
  | 0, stream => Except.ok ([], stream)
  | _ + 1, [] => Except.error SensorError.TransportError
  | n + 1, b :: rest =>
    match readBytes n rest with
    | Except.error e => Except.error e
    | Except.ok (bs, rem) => Except.ok (b :: bs, rem)

/-- `AirQualitySensor::read` for the serial binding (src/serial.rs): run the
outer synchronization loop with `attempts_left = 10`; on success write the
two magic bytes into positions 0 and 1 of a fresh buffer, read 30 more
bytes into positions 2..31 and decode; otherwise return `InvalidData`. -/
def serialRead (stream : List Nat) : Except SensorError Reading :=
  match readLoop 10 0 stream with
  | Except.error e => Except.error e
  | Except.ok (byte_read, rest) =>
    if byte_read == MAGIC_BYTE_1 then
      match readBytes (PAYLOAD_LEN - 2) rest with
      | Except.error e => Except.error e
      | Except.ok (body, _) => parse_data (MAGIC_BYTE_0 :: MAGIC_BYTE_1 :: body)
    else Except.error (SensorError.InvalidData "Unable to find magic bytes at start of payload")

/-- `AirQualitySensor::read` for the I2C binding (src/i2c.rs).  The bus is
modelled as the sequence of 32-byte blocks successive block reads would
return; the second component counts the block reads performed (the source
issues exactly one `self.i2c_bus.read`, with no loop or retry). -/
def i2cRead (bus : List (List Nat)) : Except SensorError Reading × Nat :=
  match bus with
  | [] => (Except.error SensorError.TransportError, 1)
  | blk :: _ =>
    (if byteAt blk 0 ≠ MAGIC_BYTE_0 ∨ byteAt blk 1 ≠ MAGIC_BYTE_1 then
       Except.error SensorError.BadMagic
     else parse_data blk, 1)

/-- The concrete buffer of the spec's worked scenario (§8): magic bytes,
PM1.0 std = 25, PM2.5 std = 50, PM10 std = 100, all other data bytes 0,
trailer 0x013E. -/
def scenarioBuf : List Nat :=
  [0x42, 0x4d, 0, 0, 0x00, 0x19, 0x00, 0x32, 0x00, 0x64,
   0, 0, 0, 0, 0, 0, 0, 0, 0, 0, 0, 0, 0, 0, 0, 0, 0, 0, 0, 0, 0x01, 0x3e]

/-! ### Arithmetic helper lemmas -/

/-- The Rust idiom `(hi << 8) | lo` on byte values is big-endian
recombination: for `lo < 256` it equals `hi * 256 + lo`. -/
theorem as_u16_eq (hi lo : Nat) (h : lo < 256) : as_u16 hi lo = hi * 256 + lo := by
  have h8 : lo < 2 ^ 8 := h
  apply Nat.eq_of_testBit_eq
  intro i
  have hm : hi * 256 + lo = 2 ^ 8 * hi + lo := by ring_nf
  rw [as_u16, Nat.testBit_or, Nat.testBit_shiftLeft, hm,
    Nat.testBit_mul_pow_two_add hi h8 i]
  by_cases hc : i < 8
  · have hn : ¬ (8 ≤ i) := by omega
    simp [hc, hn]
  · have h8i : 8 ≤ i := by omega
    have hz : Nat.testBit lo i = false :=
      Nat.testBit_lt_two_pow
        (lt_of_lt_of_le h8 (Nat.pow_le_pow_right (by norm_num) h8i))
    simp [hc, h8i, hz]

/-- Every byte of a well-formed buffer, read through `byteAt`, is below
256 (out-of-range reads give the default 0). -/
theorem byteAt_lt_256 (buf : List Nat) (h : WFBytes buf) (i : Nat) :
    byteAt buf i < 256 := by
  unfold byteAt
  rw [List.getD_eq_getElem?_getD]
  rcases Nat.lt_or_ge i buf.length with hi | hi
  · rw [List.getElem?_eq_getElem hi]
    simpa using h _ (List.getElem_mem hi)
  · rw [List.getElem?_eq_none hi]
    norm_num

/-- Folding addition from `c` sums the list. -/
theorem foldl_add_eq (l : List Nat) (c : Nat) :
    l.foldl (fun accum next => accum + next) c = c + l.sum := by
  induction l generalizing c with
  | nil => simp
  | cons x xs ih => simp only [List.foldl_cons, ih, List.sum_cons]; ring

/-- The sum of a list of bytes is bounded by 255 per element. -/
theorem sum_le_of_bytes (l : List Nat) (h : ∀ b ∈ l, b < 256) :
    l.sum ≤ l.length * 255 := by
  induction l with
  | nil => simp
  | cons x xs ih =>
    have hx : x < 256 := h x (by simp)
    have hs := ih (fun b hb => h b (by simp [hb]))
    simp only [List.sum_cons, List.length_cons]
    omega

/-- The checksum fold over bytes 0–29 never exceeds 30 × 255 = 7650. -/
theorem chksum_le (buf : List Nat) (h : WFBytes buf) : chksum buf ≤ 7650 := by
  unfold chksum
  rw [foldl_add_eq]
  have hwf : ∀ b ∈ buf.take (PAYLOAD_LEN - 2), b < 256 :=
    fun b hb => h b (List.take_subset _ _ hb)
  have h1 := sum_le_of_bytes _ hwf
  have h2 : (buf.take (PAYLOAD_LEN - 2)).length ≤ 30 := by
    simp [List.length_take, PAYLOAD_LEN]
  omega

/-- Under well-formedness the mod-65536 reduction of the checksum is
vacuous: the sum of 30 bytes is below 65536. -/
theorem chksum_mod (buf : List Nat) (h : WFBytes buf) :
    chksum buf % 65536 = chksum buf :=
  Nat.mod_eq_of_lt (by have := chksum_le buf h; omega)

/-! ### Claim theorems for the pure decoder -/

/-- Claim C9: decoding the spec's concrete scenario buffer yields
PM1.0 = 25, PM2.5 = 50, PM10 = 100 and every other field 0, with no
error. -/
theorem parse_data_scenario :
    parse_data scenarioBuf =
      Except.ok ⟨25, 50, 100, 0, 0, 0, 0, 0, 0, 0, 0, 0⟩ := by
  rfl

/-- Claim C6: `parse_data` is a pure total function of its input: for every
well-formed buffer it returns either `Ok` with a reading or
`ChecksumMismatch` and nothing else, and every intermediate value of the
16-bit checksum fold (the fold over any prefix of bytes 0–29) is at most
30 × 255 = 7650 < 65536, so the unchecked `u16` addition never
overflows. -/
theorem parse_data_total_no_overflow (buf : List Nat) (h : WFBytes buf) :
    ((∃ r, parse_data buf = Except.ok r) ∨
      parse_data buf = Except.error SensorError.ChecksumMismatch) ∧
    (∀ l, l <+: buf.take (PAYLOAD_LEN - 2) →
      l.foldl (fun accum next => accum + next) 0 ≤ 7650) := by
  constructor
  · by_cases hc : expected_sum buf = chksum buf
    · exact Or.inl ⟨_, by unfold parse_data; rw [if_pos hc]⟩
    · exact Or.inr (by unfold parse_data; rw [if_neg hc])
  · intro l hl
    rw [foldl_add_eq]
    have hsub : l ⊆ buf := fun b hb =>
      List.take_subset _ _ (hl.subset hb)
    have h1 := sum_le_of_bytes l (fun b hb => h b (hsub hb))
    have h2 : l.length ≤ 30 := by
      have := hl.length_le
      simp only [List.length_take, PAYLOAD_LEN] at this
      omega
    omega

/-- Witness for C6 at the concrete scenario buffer. -/
theorem parse_data_total_no_overflow_witness :
    ((∃ r, parse_data scenarioBuf = Except.ok r) ∨
      parse_data scenarioBuf = Except.error SensorError.ChecksumMismatch) ∧
    (∀ l, l <+: scenarioBuf.take (PAYLOAD_LEN - 2) →
      l.foldl (fun accum next => accum + next) 0 ≤ 7650) :=
  parse_data_total_no_overflow scenarioBuf (by decide)

/-- Claim C2: on every well-formed 32-byte buffer, `parse_data` returns
`ChecksumMismatch` if and only if the big-endian trailer at bytes 30–31
differs from the mod-65536 sum of bytes 0–29; when they are equal it
returns a `Reading`. -/
theorem parse_data_checksum_iff (buf : List Nat) (hlen : buf.length = 32)
    (h : WFBytes buf) :
    (parse_data buf = Except.error SensorError.ChecksumMismatch ↔
      expected_sum buf ≠ chksum buf % 65536) ∧
    (expected_sum buf = chksum buf % 65536 →
      ∃ r, parse_data buf = Except.ok r) := by
  rw [chksum_mod buf h]
  refine ⟨⟨fun hp heq => ?_, fun hne => ?_⟩, fun heq => ?_⟩
  · unfold parse_data at hp
    rw [if_pos heq] at hp
    cases hp
  · unfold parse_data
    rw [if_neg hne]
  · exact ⟨_, by unfold parse_data; rw [if_pos heq]⟩

/-- Witness for C2 at the concrete scenario buffer. -/
theorem parse_data_checksum_iff_witness :
    (parse_data scenarioBuf = Except.error SensorError.ChecksumMismatch ↔
      expected_sum scenarioBuf ≠ chksum scenarioBuf % 65536) ∧
    (expected_sum scenarioBuf = chksum scenarioBuf % 65536 →
      ∃ r, parse_data scenarioBuf = Except.ok r) :=
  parse_data_checksum_iff scenarioBuf (by decide) (by decide)

/-- Claim C1: on every well-formed 32-byte buffer with the magic marker at
bytes 0–1 and a valid checksum trailer, `parse_data` returns `Ok` with the
twelve fields equal to the big-endian 16-bit values at offsets 4–27, each
of the six PM fields being below 65536 and hence exactly representable as
an IEEE-754 single-precision value (its `f32` image is exact). -/
theorem parse_data_valid_frame (buf : List Nat) (hlen : buf.length = 32)
    (hwf : WFBytes buf) (h0 : byteAt buf 0 = MAGIC_BYTE_0)
    (h1 : byteAt buf 1 = MAGIC_BYTE_1) (hck : ChecksumValid buf) :
    parse_data buf = Except.ok
      { pm1 := byteAt buf 4 * 256 + byteAt buf 5
        pm2_5 := byteAt buf 6 * 256 + byteAt buf 7
        pm10 := byteAt buf 8 * 256 + byteAt buf 9
        env_pm1 := byteAt buf 10 * 256 + byteAt buf 11
        env_pm2_5 := byteAt buf 12 * 256 + byteAt buf 13
        env_pm10 := byteAt buf 14 * 256 + byteAt buf 15
        particles_0_3 := byteAt buf 16 * 256 + byteAt buf 17
        particles_0_5 := byteAt buf 18 * 256 + byteAt buf 19
        particles_1 := byteAt buf 20 * 256 + byteAt buf 21
        particles_2_5 := byteAt buf 22 * 256 + byteAt buf 23
        particles_5 := byteAt buf 24 * 256 + byteAt buf 25
        particles_10 := byteAt buf 26 * 256 + byteAt buf 27 } ∧
    (∀ i, byteAt buf i * 256 + byteAt buf (i + 1) < 65536) := by
  have heq : expected_sum buf = chksum buf := by
    rw [hck, chksum_mod buf hwf]
  have he : ∀ i, as_u16 (byteAt buf i) (byteAt buf (i + 1)) =
      byteAt buf i * 256 + byteAt buf (i + 1) :=
    fun i => as_u16_eq _ _ (byteAt_lt_256 buf hwf _)
  refine ⟨?_, fun i => ?_⟩
  · unfold parse_data
    rw [if_pos heq]
    simp only [he]
  · have hb1 := byteAt_lt_256 buf hwf i
    have hb2 := byteAt_lt_256 buf hwf (i + 1)
    omega

/-- Witness for C1 at a concrete valid frame. -/
theorem parse_data_valid_frame_witness :
    parse_data scenarioBuf = Except.ok
      { pm1 := byteAt scenarioBuf 4 * 256 + byteAt scenarioBuf 5
        pm2_5 := byteAt scenarioBuf 6 * 256 + byteAt scenarioBuf 7
        pm10 := byteAt scenarioBuf 8 * 256 + byteAt scenarioBuf 9
        env_pm1 := byteAt scenarioBuf 10 * 256 + byteAt scenarioBuf 11
        env_pm2_5 := byteAt scenarioBuf 12 * 256 + byteAt scenarioBuf 13
        env_pm10 := byteAt scenarioBuf 14 * 256 + byteAt scenarioBuf 15
        particles_0_3 := byteAt scenarioBuf 16 * 256 + byteAt scenarioBuf 17
        particles_0_5 := byteAt scenarioBuf 18 * 256 + byteAt scenarioBuf 19
        particles_1 := byteAt scenarioBuf 20 * 256 + byteAt scenarioBuf 21
        particles_2_5 := byteAt scenarioBuf 22 * 256 + byteAt scenarioBuf 23
        particles_5 := byteAt scenarioBuf 24 * 256 + byteAt scenarioBuf 25
        particles_10 := byteAt scenarioBuf 26 * 256 + byteAt scenarioBuf 27 } ∧
    (∀ i, byteAt scenarioBuf i * 256 + byteAt scenarioBuf (i + 1) < 65536) :=
  parse_data_valid_frame scenarioBuf (by decide) (by decide) (by decide)
    (by decide) (by decide)

/-- An unsynchronized 32-byte buffer with a coincidentally valid checksum:
all zeros (trailer 0 equals the sum 0 of the data bytes, and byte 0 is not
the magic byte). -/
def zeroBuf : List Nat := List.replicate 32 0

/-- A checksum-valid buffer that is unsynchronized in the way only the
magic check would catch: byte 0 is `0x42` but byte 1 is not `0x4D` (the
data bytes are zero and the trailer `0x00, 0x42` equals the sum 66 of
bytes 0–29). -/
def unsyncBuf : List Nat := 0x42 :: (List.replicate 29 0 ++ [0x00, 0x42])

/-- Claim C10: `parse_data` never inspects bytes 0–1 as a magic marker:
every well-formed 32-byte buffer whose trailer matches the mod-65536 sum
of bytes 0–29 decodes to `Ok`, whatever bytes 0–1 hold — in particular
even when they are not `0x42, 0x4D`. -/
theorem parse_data_ignores_magic (buf : List Nat) (hlen : buf.length = 32)
    (hwf : WFBytes buf) (hck : ChecksumValid buf) :
    ∃ r, parse_data buf = Except.ok r := by
  have heq : expected_sum buf = chksum buf := by
    rw [hck, chksum_mod buf hwf]
  exact ⟨_, by unfold parse_data; rw [if_pos heq]⟩

/-- Witness for C10: a checksum-valid buffer whose bytes 0–1 are not the
marker pair (byte 0 is `0x42`, byte 1 is 0, not `0x4D`) decodes to a
`Reading`. -/
theorem parse_data_ignores_magic_witness :
    ∃ r, parse_data unsyncBuf = Except.ok r :=
  parse_data_ignores_magic unsyncBuf (by decide) (by decide) (by decide)

/-- Replacing one element changes a list's sum by exactly the difference
between the new and the old value. -/
theorem sum_set_add (l : List Nat) (i v : Nat) (h : i < l.length) :
    (l.set i v).sum + l.getD i 0 = l.sum + v := by
  induction l generalizing i with
  | nil => simp at h
  | cons x xs ih =>
    cases i with
    | zero => simp [List.sum_cons]; omega
    | succ n =>
      have hn : n < xs.length := by simpa using h
      have := ih n hn
      simp only [List.set_cons_succ, List.sum_cons, List.getD_cons_succ]
      omega

/-- XOR with a power of two always changes a natural number. -/
theorem xor_two_pow_ne (b j : Nat) : b ^^^ 2 ^ j ≠ b := by
  intro h
  have h2 : b ^^^ (b ^^^ 2 ^ j) = b ^^^ b := by rw [h]
  rw [← Nat.xor_assoc, Nat.xor_self, Nat.zero_xor] at h2
  have := Nat.two_pow_pos j
  omega

/-- Effect of overwriting a data byte (offset below 30) on the checksum
fold of a 32-byte buffer. -/
theorem chksum_set (buf : List Nat) (i v : Nat) (hlen : buf.length = 32)
    (hi : i < 30) :
    chksum (buf.set i v) + byteAt buf i = chksum buf + v := by
  unfold chksum byteAt
  rw [List.set_take, foldl_add_eq, foldl_add_eq]
  have hlen30 : i < (buf.take (PAYLOAD_LEN - 2)).length := by
    simp only [List.length_take, PAYLOAD_LEN, hlen]
    omega
  have hgd : (buf.take (PAYLOAD_LEN - 2)).getD i 0 = buf.getD i 0 := by
    rw [List.getD_eq_getElem?_getD, List.getD_eq_getElem?_getD,
      List.getElem?_take_of_lt (by unfold PAYLOAD_LEN; omega)]
  have hs := sum_set_add (buf.take (PAYLOAD_LEN - 2)) i v hlen30
  omega

/-- Overwriting a data byte (offset below 30) leaves the stored trailer at
bytes 30–31 unchanged. -/
theorem expected_sum_set (buf : List Nat) (i v : Nat) (hi : i < 30) :
    expected_sum (buf.set i v) = expected_sum buf := by
  unfold expected_sum byteAt
  rw [List.getD_eq_getElem?_getD, List.getD_eq_getElem?_getD,
    List.getD_eq_getElem?_getD, List.getD_eq_getElem?_getD,
    List.getElem?_set_ne (by unfold PAYLOAD_LEN; omega),
    List.getElem?_set_ne (by unfold PAYLOAD_LEN; omega)]

/-- Claim C7: flipping any single bit of any data byte (offsets 0–29) of a
valid frame while leaving the trailer unchanged makes decoding fail with
`ChecksumMismatch` (a single-bit flip always changes the mod-65536 sum, so
the exceptional case of the claim never occurs). -/
theorem parse_data_bit_flip (buf : List Nat) (i j : Nat)
    (hlen : buf.length = 32) (hwf : WFBytes buf)
    (h0 : byteAt buf 0 = MAGIC_BYTE_0) (h1 : byteAt buf 1 = MAGIC_BYTE_1)
    (hck : ChecksumValid buf) (hi : i < 30) (hj : j < 8) :
    parse_data (buf.set i (byteAt buf i ^^^ 2 ^ j)) =
      Except.error SensorError.ChecksumMismatch := by
  have heq : expected_sum buf = chksum buf := by
    rw [hck, chksum_mod buf hwf]
  have hsum := chksum_set buf i (byteAt buf i ^^^ 2 ^ j) hlen hi
  have hne : chksum (buf.set i (byteAt buf i ^^^ 2 ^ j)) ≠ chksum buf := by
    intro hc
    rw [hc] at hsum
    exact xor_two_pow_ne (byteAt buf i) j (by omega)
  unfold parse_data
  rw [if_neg]
  rw [expected_sum_set buf _ _ hi, heq]
  exact fun hc => hne hc.symm

/-- Witness for C7: flipping bit 0 of byte 4 of the scenario buffer makes
decoding fail with `ChecksumMismatch`. -/
theorem parse_data_bit_flip_witness :
    parse_data (scenarioBuf.set 4 (byteAt scenarioBuf 4 ^^^ 2 ^ 0)) =
      Except.error SensorError.ChecksumMismatch :=
  parse_data_bit_flip scenarioBuf 4 0 (by decide) (by decide) (by decide)
    (by decide) (by decide) (by decide) (by decide)

/-- Claim C5: on a block transport, a 32-byte block whose first two bytes
are not the magic marker makes `read()` return `BadMagic` immediately,
with exactly one block read performed and no retry. -/
theorem i2cRead_bad_magic (blk : List Nat) (bus : List (List Nat))
    (hlen : blk.length = 32)
    (hm : byteAt blk 0 ≠ MAGIC_BYTE_0 ∨ byteAt blk 1 ≠ MAGIC_BYTE_1) :
    i2cRead (blk :: bus) = (Except.error SensorError.BadMagic, 1) := by
  show (if byteAt blk 0 ≠ MAGIC_BYTE_0 ∨ byteAt blk 1 ≠ MAGIC_BYTE_1 then
      Except.error SensorError.BadMagic else parse_data blk, 1) =
    (Except.error SensorError.BadMagic, 1)
  rw [if_pos hm]

/-- Witness for C5: the all-zero block is rejected with `BadMagic` after
one block read. -/
theorem i2cRead_bad_magic_witness :
    i2cRead [zeroBuf] = (Except.error SensorError.BadMagic, 1) :=
  i2cRead_bad_magic zeroBuf [] (by decide) (by decide)

/-! ### Behaviour of the stream synchronizer loops -/

/-- If the scan byte already equals the target, `findByteLoop` stops at
once without touching the stream. -/
theorem findByteLoop_found (target n : Nat) (stream : List Nat) :
    findByteLoop target n target stream = Except.ok (true, stream) := by
  cases n with
  | zero => simp [findByteLoop]
  | succ m => simp [findByteLoop]

/-- Scanning past junk that never contains the target finds the target as
soon as it appears, provided the junk is shorter than the attempt budget. -/
theorem findByteLoop_skip (target : Nat) (junk : List Nat) :
    ∀ (n byte_read : Nat) (rest : List Nat),
      (∀ b ∈ junk, b ≠ target) → byte_read ≠ target → junk.length < n →
      findByteLoop target n byte_read (junk ++ target :: rest) =
        Except.ok (true, rest) := by
  induction junk with
  | nil =>
    intro n byte_read rest hj hb hn
    cases n with
    | zero => omega
    | succ m =>
      simp only [List.nil_append, findByteLoop]
      rw [if_neg (by simpa using hb)]
      exact findByteLoop_found target m rest
  | cons x xs ih =>
    intro n byte_read rest hj hb hn
    cases n with
    | zero => simp at hn
    | succ m =>
      simp only [List.cons_append, findByteLoop]
      rw [if_neg (by simpa using hb)]
      exact ih m x rest (fun b hb2 => hj b (by simp [hb2])) (hj x (by simp))
        (by simpa using hn)

/-- If the junk contains no target byte and is at least as long as the
attempt budget, the scan exhausts its budget and reports failure, having
consumed exactly the budget. -/
theorem findByteLoop_exhaust (target : Nat) :
    ∀ (n : Nat) (junk : List Nat) (byte_read : Nat) (rest : List Nat),
      (∀ b ∈ junk, b ≠ target) → byte_read ≠ target → n ≤ junk.length →
      findByteLoop target n byte_read (junk ++ rest) =
        Except.ok (false, junk.drop n ++ rest) := by
  intro n
  induction n with
  | zero =>
    intro junk byte_read rest hj hb _
    simp [findByteLoop, hb]
  | succ m ih =>
    intro junk byte_read rest hj hb hn
    cases junk with
    | nil => simp at hn
    | cons x xs =>
      simp only [List.cons_append, findByteLoop]
      rw [if_neg (by simpa using hb)]
      have := ih xs x rest (fun b hb2 => hj b (by simp [hb2])) (hj x (by simp))
        (by simpa using hn)
      simpa using this

/-- Reading exactly the length of the first part of a concatenation
returns that part and leaves the remainder. -/
theorem readBytes_append (xs ys : List Nat) :
    readBytes xs.length (xs ++ ys) = Except.ok (xs, ys) := by
  induction xs with
  | nil => simp [readBytes]
  | cons x xs ih => simp [readBytes, ih]

/-- One outer attempt whose inner scan exhausts its 128-read budget on
magic-free junk ends the synchronization loop at once with the scan byte
unchanged. -/
theorem readLoop_no_magic (m : Nat) (junk tail : List Nat)
    (hj : ∀ b ∈ junk, b ≠ MAGIC_BYTE_0) (hk : 128 ≤ junk.length) :
    readLoop (m + 1) 0 (junk ++ tail) =
      Except.ok (0, junk.drop 128 ++ tail) := by
  have hfb : find_byte MAGIC_BYTE_0 (PAYLOAD_LEN * 4) (junk ++ tail) =
      Except.ok (false, junk.drop 128 ++ tail) := by
    unfold find_byte
    have h128 : PAYLOAD_LEN * 4 = 128 := by decide
    rw [h128]
    exact findByteLoop_exhaust MAGIC_BYTE_0 128 junk 0 tail hj (by decide) hk
  simp only [readLoop]
  rw [if_neg (by decide), hfb]
  rfl

/-- The serial `read()` on a stream whose first 128 bytes contain no first
magic byte fails with the `InvalidData` synchronization error. -/
theorem serialRead_no_magic (junk tail : List Nat)
    (hj : ∀ b ∈ junk, b ≠ MAGIC_BYTE_0) (hk : 128 ≤ junk.length) :
    serialRead (junk ++ tail) =
      Except.error
        (SensorError.InvalidData "Unable to find magic bytes at start of payload") := by
  unfold serialRead
  rw [show (10 : Nat) = 9 + 1 from rfl, readLoop_no_magic 9 junk tail hj hk]
  rfl

/-- A well-formed, magic-headed, checksum-valid 32-byte frame. -/
abbrev ValidFrame (frame : List Nat) : Prop :=
  frame.length = 32 ∧ WFBytes frame ∧ byteAt frame 0 = MAGIC_BYTE_0 ∧
    byteAt frame 1 = MAGIC_BYTE_1 ∧ ChecksumValid frame

/-- A checksum-valid well-formed buffer decodes successfully. -/
theorem parse_ok_of_checksum (buf : List Nat) (hwf : WFBytes buf)
    (hck : ChecksumValid buf) : ∃ r, parse_data buf = Except.ok r := by
  have heq : expected_sum buf = chksum buf := by
    rw [hck, chksum_mod buf hwf]
  exact ⟨_, by unfold parse_data; rw [if_pos heq]⟩

/-- After synchronization succeeds with remaining stream `rest`, the serial
`read()` decodes the buffer whose positions 0 and 1 hold the two magic
bytes and whose positions 2–31 hold exactly the next 30 stream bytes. -/
theorem serialRead_after_sync (stream rest : List Nat)
    (hsync : readLoop 10 0 stream = Except.ok (MAGIC_BYTE_1, rest))
    (hlen : 30 ≤ rest.length) :
    serialRead stream =
      parse_data (MAGIC_BYTE_0 :: MAGIC_BYTE_1 :: rest.take 30) := by
  have hsplit : rest = rest.take 30 ++ rest.drop 30 :=
    (List.take_append_drop 30 rest).symm
  have h30 : (rest.take 30).length = 30 := by
    simp [List.length_take]
    omega
  have hr : readBytes (PAYLOAD_LEN - 2) rest =
      Except.ok (rest.take 30, rest.drop 30) := by
    conv_lhs => rw [hsplit]
    rw [show PAYLOAD_LEN - 2 = (rest.take 30).length from by rw [h30]; decide]
    exact readBytes_append _ _
  unfold serialRead
  rw [hsync]
  show (match readBytes (PAYLOAD_LEN - 2) rest with
    | Except.error e => Except.error e
    | Except.ok (body, _) => parse_data (MAGIC_BYTE_0 :: MAGIC_BYTE_1 :: body)) =
    parse_data (MAGIC_BYTE_0 :: MAGIC_BYTE_1 :: rest.take 30)
  rw [hr]

/-- A stream of fewer than 128 magic-free junk bytes followed by a frame
header synchronizes within the first outer attempt: the loop stops with
the second magic byte in hand and the stream advanced to just past the
header. -/
theorem readLoop_sync (junk rest : List Nat)
    (hj : ∀ b ∈ junk, b ≠ MAGIC_BYTE_0) (hk : junk.length < 128) :
    readLoop 10 0 (junk ++ MAGIC_BYTE_0 :: MAGIC_BYTE_1 :: rest) =
      Except.ok (MAGIC_BYTE_1, rest) := by
  have hfb : find_byte MAGIC_BYTE_0 (PAYLOAD_LEN * 4)
      (junk ++ MAGIC_BYTE_0 :: MAGIC_BYTE_1 :: rest) =
      Except.ok (true, MAGIC_BYTE_1 :: rest) := by
    unfold find_byte
    have h128 : PAYLOAD_LEN * 4 = 128 := by decide
    rw [h128]
    exact findByteLoop_skip MAGIC_BYTE_0 junk 128 0 (MAGIC_BYTE_1 :: rest) hj
      (by decide) hk
  rw [show (10 : Nat) = 9 + 1 from rfl]
  simp only [readLoop]
  rw [if_neg (by decide), hfb]
  show readLoop 9 MAGIC_BYTE_1 rest = Except.ok (MAGIC_BYTE_1, rest)
  rw [show (9 : Nat) = 8 + 1 from rfl]
  simp only [readLoop]
  rw [if_pos (by decide)]

/-- The serial `read()` on magic-free junk shorter than one scan budget,
followed by a valid frame, decodes that frame. -/
theorem serialRead_success (junk frame rest : List Nat)
    (hj : ∀ b ∈ junk, b ≠ MAGIC_BYTE_0) (hk : junk.length < 128)
    (hv : ValidFrame frame) :
    serialRead (junk ++ frame ++ rest) = parse_data frame := by
  obtain ⟨hlen, hwf, h0, h1, hck⟩ := hv
  match frame, hlen with
  | f0 :: f1 :: body, hlen =>
    have hf0 : f0 = MAGIC_BYTE_0 := h0
    have hf1 : f1 = MAGIC_BYTE_1 := h1
    subst hf0
    subst hf1
    have hbody : body.length = 30 := by simpa using hlen
    have hstream : junk ++ (MAGIC_BYTE_0 :: MAGIC_BYTE_1 :: body) ++ rest =
        junk ++ MAGIC_BYTE_0 :: MAGIC_BYTE_1 :: (body ++ rest) := by simp
    rw [hstream]
    have hsync := readLoop_sync junk (body ++ rest) hj hk
    have htail : 30 ≤ (body ++ rest).length := by
      simp [List.length_append, hbody]
    rw [serialRead_after_sync _ _ hsync htail]
    have htake : (body ++ rest).take 30 = body := by
      rw [List.take_append_of_le_length (by omega), List.take_of_length_le (by omega)]

    rw [htake]

/-- Claim C8: when stream synchronization succeeds, `read()` writes the
two already-consumed magic bytes into positions 0 and 1 of the fresh
32-byte buffer and reads exactly the next 30 stream bytes into positions
2–31 before invoking the decoder, so the decoded buffer always begins
`0x42, 0x4D`. -/
theorem serialRead_buffer_layout (stream rest : List Nat)
    (hsync : readLoop 10 0 stream = Except.ok (MAGIC_BYTE_1, rest))
    (hlen : 30 ≤ rest.length) :
    serialRead stream =
      parse_data (MAGIC_BYTE_0 :: MAGIC_BYTE_1 :: rest.take 30) :=
  serialRead_after_sync stream rest hsync hlen

/-- Witness for C8 on a concrete stream: header then 32 filler bytes. -/
theorem serialRead_buffer_layout_witness :
    serialRead ([0x42, 0x4d] ++ List.replicate 32 7) =
      parse_data
        (MAGIC_BYTE_0 :: MAGIC_BYTE_1 :: (List.replicate 32 7).take 30) :=
  serialRead_buffer_layout ([0x42, 0x4d] ++ List.replicate 32 7)
    (List.replicate 32 7) (by rfl) (by decide)

/-- Claim C3 (amended): on a stream of `k` magic-free junk bytes followed
by a valid frame, the serial `read()` succeeds if and only if `k < 128`
(the inner scan budget of one outer attempt); and for every `k ≥ 1280 =
128 × 10` there is an adversarial junk placement on which `read()` fails,
the failure being the `InvalidData` synchronization error (the source
never returns `BadMagic` on the serial path). -/
theorem serialRead_sync_bounds :
    (∀ junk frame rest : List Nat, (∀ b ∈ junk, b ≠ MAGIC_BYTE_0) →
      ValidFrame frame →
      ((∃ r, serialRead (junk ++ frame ++ rest) = Except.ok r) ↔
        junk.length < 128)) ∧
    (∀ k : Nat, 1280 ≤ k → ∃ junk : List Nat, junk.length = k ∧
      (∀ b ∈ junk, b ≠ MAGIC_BYTE_0) ∧ ∀ tail,
        serialRead (junk ++ tail) =
          Except.error
            (SensorError.InvalidData "Unable to find magic bytes at start of payload")) := by
  constructor
  · intro junk frame rest hj hv
    constructor
    · rintro ⟨r, hr⟩
      by_contra hk
      push_neg at hk
      rw [List.append_assoc, serialRead_no_magic junk (frame ++ rest) hj hk]
        at hr
      cases hr
    · intro hk
      rw [serialRead_success junk frame rest hj hk hv]
      exact parse_ok_of_checksum frame hv.2.1 hv.2.2.2.2
  · intro k hk
    refine ⟨List.replicate k 0, by simp, fun b hb => ?_, fun tail => ?_⟩
    · have hb0 := List.eq_of_mem_replicate hb
      subst hb0
      decide
    · refine serialRead_no_magic _ tail (fun b hb => ?_) (by simp; omega)
      have hb0 := List.eq_of_mem_replicate hb
      subst hb0
      decide

/-- Witness for C3 (amended) at one junk byte before the scenario frame,
and at the 1280-junk bound. -/
theorem serialRead_sync_bounds_witness :
    ((∃ r, serialRead ([0] ++ scenarioBuf ++ []) = Except.ok r) ↔
      ([0] : List Nat).length < 128) ∧
    (∃ junk : List Nat, junk.length = 1280 ∧
      (∀ b ∈ junk, b ≠ MAGIC_BYTE_0) ∧ ∀ tail,
        serialRead (junk ++ tail) =
          Except.error
            (SensorError.InvalidData "Unable to find magic bytes at start of payload")) :=
  ⟨serialRead_sync_bounds.1 [0] scenarioBuf [] (by decide) (by decide),
   serialRead_sync_bounds.2 1280 (by decide)⟩

/-- 1280 junk bytes (the worst-case bound of the claim) followed by one
valid frame. -/
def c3Stream : List Nat := List.replicate 1280 0 ++ scenarioBuf

/-- Counterexample to C3 as stated: with `k = 1280` junk bytes before a
valid frame, the serial `read()` fails with `InvalidData`, not with
`BadMagic` as the claim asserts. -/
theorem serialRead_sync_badmagic_refuted :
    serialRead c3Stream =
      Except.error
        (SensorError.InvalidData "Unable to find magic bytes at start of payload") ∧
    serialRead c3Stream ≠ Except.error SensorError.BadMagic := by
  have h1 : serialRead c3Stream =
      Except.error
        (SensorError.InvalidData "Unable to find magic bytes at start of payload") := by
    rfl
  refine ⟨h1, ?_⟩
  rw [h1]
  simp

/-- Ten times a first magic byte followed by a non-second-magic byte: each
pair consumes one outer synchronization attempt, exhausting all ten. -/
def exhaustStream : List Nat :=
  [0x42, 0, 0x42, 0, 0x42, 0, 0x42, 0, 0x42, 0,
   0x42, 0, 0x42, 0, 0x42, 0, 0x42, 0, 0x42, 0] ++ scenarioBuf

/-- Counterexample to C4 as stated: a stream that exhausts all 10 outer
attempts makes the serial `read()` fail with `InvalidData`, not with
`BadMagic` as the claim asserts. -/
theorem serialRead_exhaust_badmagic_refuted :
    serialRead exhaustStream =
      Except.error
        (SensorError.InvalidData "Unable to find magic bytes at start of payload") ∧
    serialRead exhaustStream ≠ Except.error SensorError.BadMagic := by
  have h1 : serialRead exhaustStream =
      Except.error
        (SensorError.InvalidData "Unable to find magic bytes at start of payload") := by
    rfl
  refine ⟨h1, ?_⟩
  rw [h1]
  simp

/-- Claim C4 (amended): if the serial `read()` finishes its outer
synchronization loop without having located the second magic byte — in
particular after exhausting all 10 outer attempts — it returns the error
`InvalidData "Unable to find magic bytes at start of payload"`. -/
theorem serialRead_exhausted_invalid_data (stream rest : List Nat) (b : Nat)
    (hs : readLoop 10 0 stream = Except.ok (b, rest))
    (hb : b ≠ MAGIC_BYTE_1) :
    serialRead stream =
      Except.error
        (SensorError.InvalidData "Unable to find magic bytes at start of payload") := by
  unfold serialRead
  rw [hs]
  show (if (b == MAGIC_BYTE_1) = true then
      match readBytes (PAYLOAD_LEN - 2) rest with
      | Except.error e => Except.error e
      | Except.ok (body, _) => parse_data (MAGIC_BYTE_0 :: MAGIC_BYTE_1 :: body)
    else
      Except.error
        (SensorError.InvalidData "Unable to find magic bytes at start of payload")) =
    Except.error
      (SensorError.InvalidData "Unable to find magic bytes at start of payload")
  rw [if_neg (by simpa using hb)]

/-- Witness for C4 (amended): the attempt-exhausting stream ends with the
scan byte still 0, and `read()` reports `InvalidData`. -/
theorem serialRead_exhausted_invalid_data_witness :
    serialRead exhaustStream =
      Except.error
        (SensorError.InvalidData "Unable to find magic bytes at start of payload") :=
  serialRead_exhausted_invalid_data exhaustStream scenarioBuf 0 (by rfl)
    (by decide)

end Sen0177
